import Mathlib

/-!
# Verification of the tfe-run run-lifecycle orchestration (main.go)

A shallow embedding of the Go program `main.go` of the `tfe-run` GitHub
action.  Remote behaviour (the Terraform Cloud API, the file system) is
modelled by explicit "world" records of responses, indexed by invocation
number where the code polls.  Wall-clock time inside `pollWithContext` is
modelled by counting iterations: the loop sleeps 500 ms before every
invocation of the poll function and the poll function itself is treated as
instantaneous, so after `n` invocations the elapsed time is `500 * n`
milliseconds.  Loops are written with an explicit fuel argument; running
out of fuel is reported through the dedicated error `GoError.outOfFuel`,
which no real execution path produces.
-/

/-- Go `error` values that the program creates or compares against.
`wrap msg cause` models `fmt.Errorf("msg: %w", cause)`, `msg` models a
fresh `fmt.Errorf`/`errors.New` message, `canceled` is `context.Canceled`,
`errTimeout` is the sentinel `ErrTimeout`, `resourceNotFound` is
`tfe.ErrResourceNotFound`, and `outOfFuel` is a model artifact marking
exhausted loop fuel. -/
inductive GoError where
  | canceled
  | errTimeout
  | resourceNotFound
  | outOfFuel
  | msg (s : String)
  | wrap (s : String) (cause : GoError)
deriving DecidableEq

/-! ## Run status constants (string values of the `tfe.RunStatus` tokens) -/

def RunPolicySoftFailed : String := "policy_soft_failed"

def RunPlannedAndFinished : String := "planned_and_finished"

def RunApplied : String := "applied"

def RunDiscarded : String := "discarded"

def RunErrored : String := "errored"

def RunCanceled : String := "canceled"

/-! ## Configuration version status constants (`tfe.ConfigurationStatus`) -/

def ConfigurationErrored : String := "errored"

def ConfigurationUploaded : String := "uploaded"

def ConfigurationPending : String := "pending"

/-- Function `isEndStatus` from main.go: the six run statuses that stop the
completion poll. -/
def isEndStatus (r : String) : Bool :=
  r == RunPolicySoftFailed || r == RunPlannedAndFinished || r == RunApplied ||
    r == RunDiscarded || r == RunErrored || r == RunCanceled

/-- Function `prettyPrint` from main.go: `strings.ReplaceAll(string(r), "_", " ")`.
The pattern is the single character `_`, so the call is character-wise
replacement. -/
def prettyPrint (r : String) : String :=
  String.mk (r.data.map fun c => if c = '_' then ' ' else c)

/-- The `switch r.Status` at the end of `Client.Run`:
`planned_and_finished` and `applied` leave `err` nil, every other terminal
status produces `fmt.Errorf("run %v finished with status %v", ...)`. -/
def classifyEndStatus (runID status : String) : Option GoError :=
  if status == RunPlannedAndFinished then none
  else if status == RunApplied then none
  else some (.msg ("run " ++ runID ++ " finished with status " ++ prettyPrint status))

/-! ## The generic poller `pollWithContext`

The Go loop:
```
start := time.Now()
for {
  select {
  case <-ctx.Done(): return context.Canceled
  case <-time.After(500 * time.Millisecond):
    success, err := pollFn()
    if err != nil || success { return err }
    if time.Since(start) > timeout { return ErrTimeout }
  }
}
```
`canceled n` tells whether the context is observed done at the top of
iteration `n` (before the 500 ms timer fires); `pollFn n` is the result of
the n-th invocation of the closure (0-based).  The second component of a
returned pair counts completed `pollFn` invocations.  `none` means the
fuel ran out. -/
def pollWithContextAux (canceled : Nat → Bool) (timeoutMs : Nat)
    (pollFn : Nat → Bool × Option GoError) :
    Nat → Nat → Option (Option GoError × Nat)
  | 0, _ => none
  | fuel + 1, n =>
    if canceled n then some (some .canceled, n)
    else
      let r := pollFn n
      if r.2.isSome || r.1 then some (r.2, n + 1)
      else if 500 * (n + 1) > timeoutMs then some (some .errTimeout, n + 1)
      else pollWithContextAux canceled timeoutMs pollFn fuel (n + 1)

/-- The poller `pollWithContext` started at iteration 0. -/
def pollWithContext (canceled : Nat → Bool) (timeoutMs : Nat)
    (pollFn : Nat → Bool × Option GoError) (fuel : Nat) :
    Option (Option GoError × Nat) :=
  pollWithContextAux canceled timeoutMs pollFn fuel 0

example : pollWithContext (fun _ => false) 1000 (fun _ => (false, none)) 5 =
    some (some .errTimeout, 3) := by decide

example : pollWithContext (fun _ => false) 1000 (fun n => (n == 1, none)) 5 =
    some (none, 2) := by decide

example : pollWithContext (fun n => n == 1) 1000 (fun _ => (false, none)) 5 =
    some (some .canceled, 1) := by decide

/-! ## Data model -/

/-- The fields of `tfe.Workspace` that `Client.Run` reads. -/
structure Workspace where
  id : String
  name : String
  organization : String
  workingDirectory : String
  autoApply : Bool
deriving DecidableEq

/-- Type `RunType` from main.go. -/
inductive RunType where
  | plan
  | apply
  | destroy
deriving DecidableEq

/-- Structure `RunOptions` from main.go.  Go nil-able fields become `Option`;
a nil `[]string` slice is `none`, a non-nil slice is `some`. -/
structure RunOptions where
  message : Option String
  directory : Option String
  type : RunType
  targetAddrs : Option (List String)
  replaceAddrs : Option (List String)
  waitForCompletion : Bool
  tfVars : Option String
deriving DecidableEq

/-- Structure `RunOutput` from main.go (`HasChanges *bool` becomes `Option Bool`). -/
structure RunOutput where
  runURL : String
  hasChanges : Option Bool
deriving DecidableEq

/-- The fields of a `tfe.ConfigurationVersion` read while polling. -/
structure CVRead where
  status : String
  error : String
  errorMessage : String
deriving DecidableEq

/-- The fields of a `tfe.Run` read while polling for completion. -/
structure RunRead where
  status : String
  hasChanges : Bool
deriving DecidableEq

/-- Responses of the remote API and the local file system during one call
of `Client.Run`.  Polled reads are indexed by invocation number. -/
structure World where
  createCV : Except GoError Unit
  writeVarsFile : Option GoError
  upload : Option GoError
  cvReads : Nat → Except GoError CVRead
  createRun : Except GoError String
  runReads : Nat → Except GoError RunRead
  removeVarsFile : Option GoError

/-- Observable side effects of `Client.Run`, in program order. -/
inductive Event where
  | wroteVarsFile
  | uploadCalled
  | removedVarsFile (ok : Bool)
  | createdRun
  | loggedSkipWait
  | runRead (n : Nat)
  | observedStatus (s : String)
  | loggedStatus (s : String)
deriving DecidableEq

def isRunRead : Event → Bool
  | .runRead _ => true
  | _ => false

def isLoggedStatus : Event → Bool
  | .loggedStatus _ => true
  | _ => false

def observedOf : Event → Option String
  | .observedStatus s => some s
  | _ => none

/-! ## The configuration-version poll (main.go lines 182-195)

`Run` calls `pollWithContext(ctx, 5*time.Second, ...)`: the second
argument of `pollWithContext` is its `timeout`, so the upload wait has a
5-second budget while the interval stays the hardcoded 500 ms. -/

/-- The closure passed to `pollWithContext` for the upload wait: read the
configuration version, fail on a read error, fail immediately when its
status is `errored` (carrying `cv.Error` / `cv.ErrorMessage`), succeed
when its status is `uploaded`. -/
def cvPollFn (reads : Nat → Except GoError CVRead) (n : Nat) :
    Bool × Option GoError :=
  match reads n with
  | .error e => (false, some (.wrap "could not get current configuration version" e))
  | .ok cv =>
    if cv.status == ConfigurationErrored then
      (false, some (.msg ("configuration version errored: " ++ cv.error ++ " - " ++
        cv.errorMessage)))
    else
      (cv.status == ConfigurationUploaded, none)

/-- Timeout passed to the upload-wait poll: `5*time.Second`, in ms. -/
def cvPollTimeoutMs : Nat := 5000

/-- The upload-wait poll as `Run` performs it (context never cancelled). -/
def cvPoll (reads : Nat → Except GoError CVRead) (fuel : Nat) :
    Option (Option GoError × Nat) :=
  pollWithContext (fun _ => false) cvPollTimeoutMs (cvPollFn reads) fuel

/-! ## The run-completion poll (main.go lines 237-251)

`pollWithContext(ctx, 60*time.Minute, ...)` with a stateful closure: the
captured `prevStatus` (zero value `""`) suppresses the log line when the
status equals the previously observed one; `isEndStatus` decides
termination.  The closure state forces a specialised loop here; it mirrors
`pollWithContextAux` with the closure inlined and records events. -/

/-- Timeout passed to the completion poll: `60*time.Minute`, in ms. -/
def runPollTimeoutMs : Nat := 3600000

inductive CompletionResult where
  | failed (e : GoError)
  | finished (r : RunRead)
deriving DecidableEq

/-- The completion poll.  `n` counts completed reads, `prev` is the
captured `prevStatus`. -/
def completionPollAux (reads : Nat → Except GoError RunRead) :
    Nat → Nat → String → CompletionResult × List Event
  | 0, _, _ => (.failed .outOfFuel, [])
  | fuel + 1, n, prev =>
    match reads n with
    | .error e => (.failed (.wrap "could not read run" e), [.runRead n])
    | .ok r =>
      let logEvs : List Event :=
        if r.status ≠ prev then [.loggedStatus (prettyPrint r.status)] else []
      let prevNext := if r.status ≠ prev then r.status else prev
      let evs : List Event := .runRead n :: .observedStatus r.status :: logEvs
      if isEndStatus r.status then (.finished r, evs)
      else if 500 * (n + 1) > runPollTimeoutMs then (.failed .errTimeout, evs)
      else
        let k := completionPollAux reads fuel (n + 1) prevNext
        (k.1, evs ++ k.2)

def completionPoll (reads : Nat → Except GoError RunRead) (fuel : Nat) :
    CompletionResult × List Event :=
  completionPollAux reads fuel 0 ""

/-! ## `Client.Run` -/

/-- Result of one call of `Client.Run`: the named return values and the
ordered side effects. -/
structure RunResult where
  output : RunOutput
  err : Option GoError
  events : List Event
deriving DecidableEq

/-- The error produced when `ConfigurationVersions.Create` fails:
`tfe.ErrResourceNotFound` is replaced by a more specific message. -/
def cvCreateError (e : GoError) : GoError :=
  if e = .resourceNotFound then
    .msg "could not create configuration version (404 not found), this might happen if you are not using a user or team API token"
  else
    .wrap "could not create a new configuration version" e

/-- The run URL built right after `Runs.Create` succeeds. -/
def runURLOf (ws : Workspace) (runID : String) : String :=
  "https://app.terraform.io/app/" ++ ws.organization ++ "/workspaces/" ++
    ws.name ++ "/runs/" ++ runID

/-- The part of `Client.Run` from the directory upload onwards (after the
configuration version exists and the optional vars file was written).
The deferred removal of the vars file is handled by the caller. -/
def afterVars (w : World) (ws : Workspace) (options : RunOptions) (fuel : Nat) :
    RunResult :=
  match w.upload with
  | some e => ⟨⟨"", none⟩, some (.wrap "could not upload directory" e), [.uploadCalled]⟩
  | none =>
    match cvPoll w.cvReads fuel with
    | none =>
      ⟨⟨"", none⟩, some (.wrap "uploading configuration version failed" .outOfFuel),
        [.uploadCalled]⟩
    | some (some e, _) =>
      ⟨⟨"", none⟩, some (.wrap "uploading configuration version failed" e),
        [.uploadCalled]⟩
    | some (none, _) =>
      match w.createRun with
      | .error e => ⟨⟨"", none⟩, some (.wrap "could not create run" e), [.uploadCalled]⟩
      | .ok runID =>
        let url := runURLOf ws runID
        if options.waitForCompletion = false then
          ⟨⟨url, none⟩, none, [.uploadCalled, .createdRun]⟩
        else if options.type ≠ RunType.plan ∧ ws.autoApply = false then
          ⟨⟨url, none⟩, none, [.uploadCalled, .createdRun, .loggedSkipWait]⟩
        else
          match completionPoll w.runReads fuel with
          | (.failed e, pollEvs) =>
            ⟨⟨url, none⟩, some (.wrap "waiting for completion of run failed" e),
              [.uploadCalled, .createdRun] ++ pollEvs⟩
          | (.finished r, pollEvs) =>
            ⟨⟨url, some r.hasChanges⟩, classifyEndStatus runID r.status,
              [.uploadCalled, .createdRun] ++ pollEvs⟩

/-- Method `Client.Run`.  When `options.TfVars` is set and the write succeeds, a
`defer` removes the vars file on every return path of the remainder of the
function; a removal failure is logged (the `removedVarsFile false` event)
through a shadowing `err :=`, leaving the returned error untouched. -/
def RunModel (w : World) (ws : Workspace) (options : RunOptions) (fuel : Nat) :
    RunResult :=
  match w.createCV with
  | .error e => ⟨⟨"", none⟩, some (cvCreateError e), []⟩
  | .ok _ =>
    match options.tfVars with
    | none => afterVars w ws options fuel
    | some _ =>
      match w.writeVarsFile with
      | some e => ⟨⟨"", none⟩, some (.wrap "could not create run.auto.tfvars" e), []⟩
      | none =>
        let body := afterVars w ws options fuel
        ⟨body.output, body.err,
          .wroteVarsFile :: body.events ++ [.removedVarsFile w.removeVarsFile.isNone]⟩

/-! ## Output extraction (`GetTerraformOutputs`, main.go lines 291-329)

The downloaded state bytes are modelled by their parsed JSON value; the
claims concern `json.Unmarshal`'s mapping of that value into
`minimalTerraformState`, not byte-level JSON lexing. -/

inductive Json where
  | str (s : String)
  | num (n : Int)
  | bool (b : Bool)
  | null
  | arr (xs : List Json)
  | obj (fields : List (String × Json))

def jsonLookup (k : String) : List (String × Json) → Option Json
  | [] => none
  | (k2, v) :: rest => if k2 == k then some v else jsonLookup k rest

/-- Structure `terraformOutput` from main.go: note that `Value` is a Go `string`. -/
structure terraformOutput where
  type : String
  value : String
deriving DecidableEq

/-- Structure `minimalTerraformState` from main.go.  The Go `map[string]terraformOutput`
is modelled as an association list. -/
structure minimalTerraformState where
  outputs : List (String × terraformOutput)
deriving DecidableEq

/-- Behaviour of `json.Unmarshal` into a Go `string` field: a JSON string is taken
verbatim, JSON `null` leaves the zero value, anything else is a type
error. -/
def unmarshalGoString : Json → Except String String
  | .str s => .ok s
  | .null => .ok ""
  | _ => .error "cannot unmarshal JSON value into Go value of type string"

/-- Behaviour of `json.Unmarshal` into `terraformOutput`: must be a JSON object (or
null); the fields `type` and `value` unmarshal into Go strings, unknown
fields are ignored, absent fields keep their zero value. -/
def unmarshalField (fields : List (String × Json)) (name : String) :
    Except String String :=
  match jsonLookup name fields with
  | none => .ok ""
  | some j => unmarshalGoString j

def unmarshalOutput : Json → Except String terraformOutput
  | .obj fields =>
    match unmarshalField fields "type" with
    | .error e => .error e
    | .ok t =>
      match unmarshalField fields "value" with
      | .error e => .error e
      | .ok v => .ok ⟨t, v⟩
  | .null => .ok ⟨"", ""⟩
  | _ => .error "cannot unmarshal JSON value into Go value of type main.terraformOutput"

def unmarshalOutputEntries : List (String × Json) →
    Except String (List (String × terraformOutput))
  | [] => .ok []
  | (k, j) :: rest =>
    match unmarshalOutput j with
    | .error e => .error e
    | .ok v =>
      match unmarshalOutputEntries rest with
      | .error e => .error e
      | .ok r => .ok ((k, v) :: r)

/-- Behaviour of `json.Unmarshal` into `minimalTerraformState`: the top level must be a
JSON object (or null); its `outputs` field, when present, must be an
object (or null) whose every value unmarshals into `terraformOutput`. -/
def unmarshalState : Json → Except String minimalTerraformState
  | .obj fields =>
    match jsonLookup "outputs" fields with
    | none => .ok ⟨[]⟩
    | some .null => .ok ⟨[]⟩
    | some (.obj entries) =>
      match unmarshalOutputEntries entries with
      | .error e => .error e
      | .ok outs => .ok ⟨outs⟩
    | some _ =>
      .error "cannot unmarshal JSON value into Go value of type map[string]main.terraformOutput"
  | .null => .ok ⟨[]⟩
  | _ => .error "cannot unmarshal JSON value into Go value of type main.minimalTerraformState"

/-- Remote responses used by `GetTerraformOutputs`. -/
structure OutputsWorld where
  readCurrent : Except GoError Unit
  download : Except GoError Json

/-- Method `Client.GetTerraformOutputs`: read the current state version, download
it, unmarshal it, and return `outputs[k] = v.Value` for every entry. -/
def GetTerraformOutputs (w : OutputsWorld) :
    Except GoError (List (String × String)) :=
  match w.readCurrent with
  | .error e => .error (.wrap "could not get current state" e)
  | .ok _ =>
    match w.download with
    | .error e => .error (.wrap "could not download state" e)
    | .ok j =>
      match unmarshalState j with
      | .error m => .error (.wrap "could not parse state" (.msg m))
      | .ok state => .ok (state.outputs.map fun e => (e.1, e.2.value))

/-! ## Input normalization in `main` (lines 386-394, 429-443) -/

/-- Go `strings.Split(s, "\n")`: the accumulator collects the current
field in reverse. -/
def goSplitNewlineAux : List Char → List Char → List String
  | [], acc => [String.mk acc.reverse]
  | c :: rest, acc =>
    if c = '\n' then String.mk acc.reverse :: goSplitNewlineAux rest []
    else goSplitNewlineAux rest (c :: acc)

def goSplitNewline (s : String) : List String :=
  goSplitNewlineAux s.data []

example : goSplitNewline "" = [""] := by decide

example : goSplitNewline "a\n\nb" = ["a", "", "b"] := by decide

/-- The loop body of `notAllEmptyOrNil`: scan `l`; on the first non-empty
element return the whole original slice, otherwise nil. -/
def notAllEmptyOrNilAux (slice : List String) : List String → Option (List String)
  | [] => none
  | s :: rest => if s ≠ "" then some slice else notAllEmptyOrNilAux slice rest

/-- Function `notAllEmptyOrNil` from main.go: `none` models the nil slice. -/
def notAllEmptyOrNil (slice : List String) : Option (List String) :=
  notAllEmptyOrNilAux slice slice

/-- The assignment `TargetAddrs: notAllEmptyOrNil(strings.Split(input.Targets, "\n"))`
(and identically `ReplaceAddrs` from `input.Replacements`). -/
def targetAddrsInput (targets : String) : Option (List String) :=
  notAllEmptyOrNil (goSplitNewline targets)

/-- The `TargetAddrs` field of `tfe.RunCreateOptions` when the caller
never specifies targets: the zero value, a nil slice. -/
def runCreateTargetsWhenUnspecified : Option (List String) := none

example : targetAddrsInput "" = none := by decide

example : targetAddrsInput "a\n\nb" = some ["a", "", "b"] := by decide

/-! ## Poller lemmas -/

/-- If the context is never cancelled and the operation never signals,
the poll loop returns `ErrTimeout` after exactly `t / 500 + 1`
invocations (the first invocation count `k` with `500 * k > t`). -/
theorem pollWithContextAux_timeout (canceled : Nat → Bool) (t : Nat)
    (pollFn : Nat → Bool × Option GoError)
    (hca : ∀ n, canceled n = false) (hpf : ∀ n, pollFn n = (false, none)) :
    ∀ fuel n, n ≤ t / 500 → t / 500 + 1 ≤ fuel + n →
      pollWithContextAux canceled t pollFn fuel n =
        some (some GoError.errTimeout, t / 500 + 1) := by
  intro fuel
  induction fuel with
  | zero => intro n h1 h2; omega
  | succ fuel ih =>
    intro n h1 h2
    rw [pollWithContextAux, hca n]
    simp only [Bool.false_eq_true, if_false, hpf n, Option.isSome_none,
      Bool.or_self, Bool.false_eq_true, if_false]
    by_cases h : 500 * (n + 1) > t
    · rw [if_pos h]
      have : n + 1 = t / 500 + 1 := by omega
      rw [this]
    · rw [if_neg h]
      exact ih (n + 1) (by omega) (by omega)

/-- If the operation first signals (returns an error or success) at
invocation `n`, with no cancellation and no timeout strictly before, the
loop returns that signal with invocation count `n + 1`. -/
theorem pollWithContextAux_reach (canceled : Nat → Bool) (t : Nat)
    (pollFn : Nat → Bool × Option GoError) (n : Nat)
    (hca : ∀ m, m ≤ n → canceled m = false)
    (hpf : ∀ m, m < n → pollFn m = (false, none))
    (ht : ∀ m, m < n → 500 * (m + 1) ≤ t)
    (hsig : ((pollFn n).2.isSome || (pollFn n).1) = true) :
    ∀ fuel m, m ≤ n → n + 1 ≤ fuel + m →
      pollWithContextAux canceled t pollFn fuel m = some ((pollFn n).2, n + 1) := by
  intro fuel
  induction fuel with
  | zero => intro m h1 h2; omega
  | succ fuel ih =>
    intro m h1 h2
    rw [pollWithContextAux, hca m h1]
    simp only [Bool.false_eq_true, if_false]
    rcases Nat.lt_or_ge m n with hm | hm
    · rw [hpf m hm]
      simp only [Option.isSome_none, Bool.or_self, Bool.false_eq_true, if_false]
      rw [if_neg (by have := ht m hm; omega)]
      exact ih (m + 1) (by omega) (by omega)
    · have hmn : m = n := by omega
      subst hmn
      rw [if_pos hsig]

/-- Whenever the loop returns `ErrTimeout` with invocation count `k`,
at least one invocation beyond the starting index happened: `n + 1 ≤ k`. -/
theorem pollWithContextAux_timeout_count (canceled : Nat → Bool) (t : Nat)
    (pollFn : Nat → Bool × Option GoError) :
    ∀ fuel n k,
      pollWithContextAux canceled t pollFn fuel n =
        some (some GoError.errTimeout, k) → n + 1 ≤ k := by
  intro fuel
  induction fuel with
  | zero => intro n k h; simp [pollWithContextAux] at h
  | succ fuel ih =>
    intro n k h
    rw [pollWithContextAux] at h
    by_cases hc : canceled n = true
    · rw [if_pos hc] at h
      simp at h
    · rw [if_neg hc] at h
      simp only at h
      by_cases hs : (((pollFn n).2.isSome || (pollFn n).1) = true)
      · rw [if_pos hs] at h
        have := h
        simp only [Option.some.injEq, Prod.mk.injEq] at this
        omega
      · rw [if_neg hs] at h
        by_cases htt : 500 * (n + 1) > t
        · rw [if_pos htt] at h
          simp only [Option.some.injEq, Prod.mk.injEq] at h
          omega
        · rw [if_neg htt] at h
          have := ih (n + 1) k h
          omega

/-- C7: if the operation never signals done and never returns an error
(and the context is never cancelled), `pollWithContext` returns the
dedicated timeout error once the cumulative elapsed time
`500 * (t / 500 + 1)` exceeds the timeout `t`, and `ErrTimeout` is a
sentinel distinct from the cancellation error and from every other error
constructor the poller can hand back. -/
theorem poller_times_out_with_distinct_error (t fuel : Nat)
    (canceled : Nat → Bool) (pollFn : Nat → Bool × Option GoError)
    (hca : ∀ n, canceled n = false) (hpf : ∀ n, pollFn n = (false, none))
    (hfuel : t / 500 + 1 ≤ fuel) :
    pollWithContext canceled t pollFn fuel =
        some (some GoError.errTimeout, t / 500 + 1) ∧
      500 * (t / 500 + 1) > t ∧
      GoError.errTimeout ≠ GoError.canceled ∧
      GoError.errTimeout ≠ GoError.outOfFuel ∧
      (∀ s, GoError.errTimeout ≠ GoError.msg s) ∧
      (∀ s c, GoError.errTimeout ≠ GoError.wrap s c) := by
  refine ⟨?_, by omega, by simp, by simp, by simp, by simp⟩
  exact pollWithContextAux_timeout canceled t pollFn hca hpf fuel 0 (by omega) (by omega)

/-- Witness for C7 at timeout 1000 ms: the loop times out at the third
invocation (elapsed 1500 ms). -/
theorem poller_times_out_with_distinct_error_witness :
    pollWithContext (fun _ => false) 1000 (fun _ => (false, none)) 3 =
        some (some GoError.errTimeout, 3) ∧
      GoError.errTimeout ≠ GoError.canceled := by
  have h := poller_times_out_with_distinct_error 1000 3 (fun _ => false)
    (fun _ => (false, none)) (fun _ => rfl) (fun _ => rfl) (by omega)
  exact ⟨h.1, h.2.2.1⟩

/-- C9: the timeout check happens only after an invocation of the
operation: whenever `pollWithContext` returns `ErrTimeout` its invocation
count is at least 1, and with a zero (already-exceeded) timeout the
operation is invoked exactly once before `ErrTimeout` is produced. -/
theorem poller_invokes_before_timeout :
    (∀ (canceled : Nat → Bool) (t : Nat)
      (pollFn : Nat → Bool × Option GoError) (fuel k : Nat),
      pollWithContext canceled t pollFn fuel =
        some (some GoError.errTimeout, k) → 1 ≤ k) ∧
    (∀ (canceled : Nat → Bool) (pollFn : Nat → Bool × Option GoError) (fuel : Nat),
      canceled 0 = false → pollFn 0 = (false, none) → 1 ≤ fuel →
      pollWithContext canceled 0 pollFn fuel =
        some (some GoError.errTimeout, 1)) := by
  constructor
  · intro canceled t pollFn fuel k h
    exact pollWithContextAux_timeout_count canceled t pollFn fuel 0 k h
  · intro canceled pollFn fuel hc hp hf
    match fuel, hf with
    | fuel + 1, _ =>
      rw [pollWithContext, pollWithContextAux, hc]
      simp only [Bool.false_eq_true, if_false, hp, Option.isSome_none,
        Bool.or_self, Bool.false_eq_true, if_false]
      norm_num

/-- Witness for C9: with timeout 0 the operation still runs once. -/
theorem poller_invokes_before_timeout_witness :
    pollWithContext (fun _ => false) 0 (fun _ => (false, none)) 1 =
        some (some GoError.errTimeout, 1) ∧
      1 ≤ 1 := by
  refine ⟨poller_invokes_before_timeout.2 (fun _ => false) (fun _ => (false, none)) 1
    rfl rfl (by omega), ?_⟩
  exact poller_invokes_before_timeout.1 (fun _ => false) 0 (fun _ => (false, none)) 1 1
    (poller_invokes_before_timeout.2 (fun _ => false) (fun _ => (false, none)) 1
      rfl rfl (by omega))

/-! ## C2: the upload wait -/

/-- Specification-side upload wait, following the spec's words (§4.2):
after upload, poll every 5 seconds with a 60-minute cap until the
snapshot's status is processed (the code's `uploaded` status token);
a transition to `errored` aborts immediately.  Stated only to be compared
with the code's `cvPoll`. -/
def specUploadPollAux (reads : Nat → Except GoError CVRead) :
    Nat → Nat → Option (Option GoError × Nat)
  | 0, _ => none
  | fuel + 1, n =>
    let r := cvPollFn reads n
    if r.2.isSome || r.1 then some (r.2, n + 1)
    else if 5000 * (n + 1) > 3600000 then some (some .errTimeout, n + 1)
    else specUploadPollAux reads fuel (n + 1)

def specUploadPoll (reads : Nat → Except GoError CVRead) (fuel : Nat) :
    Option (Option GoError × Nat) :=
  specUploadPollAux reads fuel 0

/-- A snapshot that stays `pending` for its first 20 status reads and is
`uploaded` from the 21st read on. -/
def cvReadsSlow : Nat → Except GoError CVRead := fun n =>
  if n < 20 then .ok ⟨ConfigurationPending, "", ""⟩
  else .ok ⟨ConfigurationUploaded, "", ""⟩

/-- Counterexample to C2: the code's upload wait passes `5*time.Second`
as the poll **timeout** (the interval stays 500 ms), so a snapshot that
becomes uploaded after 10 seconds makes `Run` fail with `ErrTimeout`
at the 11th invocation, while a poller with the claimed 5-second interval
and 60-minute cap would succeed at the 21st invocation. -/
theorem upload_wait_times_out_after_five_seconds :
    cvPoll cvReadsSlow 30 = some (some GoError.errTimeout, 11) ∧
      specUploadPoll cvReadsSlow 30 = some (none, 21) := by decide

/-- C2 amended: the upload wait polls every 500 ms with a 5-second
timeout until the snapshot's status is `uploaded`; a snapshot status of
`errored` aborts immediately —  at the very invocation that observes it —
with the snapshot's reported error detail, and a snapshot that never
leaves a non-terminal status yields `ErrTimeout` at the 11th invocation
(the first invocation whose elapsed time `500 * k` exceeds 5000 ms). -/
theorem upload_wait_behaviour :
    (∀ (reads : Nat → Except GoError CVRead) (fuel : Nat),
      (∀ n, cvPollFn reads n = (false, none)) → 11 ≤ fuel →
      cvPoll reads fuel = some (some GoError.errTimeout, 11)) ∧
    (∀ (reads : Nat → Except GoError CVRead) (fuel n : Nat) (cv : CVRead),
      (∀ m, m < n → cvPollFn reads m = (false, none)) →
      (∀ m, m < n → 500 * (m + 1) ≤ cvPollTimeoutMs) →
      reads n = .ok cv → cv.status = ConfigurationErrored → n + 1 ≤ fuel →
      cvPoll reads fuel =
        some (some (.msg ("configuration version errored: " ++ cv.error ++ " - " ++
          cv.errorMessage)), n + 1)) ∧
    (∀ (reads : Nat → Except GoError CVRead) (fuel n : Nat) (cv : CVRead),
      (∀ m, m < n → cvPollFn reads m = (false, none)) →
      (∀ m, m < n → 500 * (m + 1) ≤ cvPollTimeoutMs) →
      reads n = .ok cv → cv.status = ConfigurationUploaded → n + 1 ≤ fuel →
      cvPoll reads fuel = some (none, n + 1)) := by
  refine ⟨?_, ?_, ?_⟩
  · intro reads fuel hpf hfuel
    have h := pollWithContextAux_timeout (fun _ => false) cvPollTimeoutMs
      (cvPollFn reads) (fun _ => rfl) hpf fuel 0 (by norm_num [cvPollTimeoutMs])
      (by norm_num [cvPollTimeoutMs]; omega)
    rw [cvPoll, pollWithContext, h]
    norm_num [cvPollTimeoutMs]
  · intro reads fuel n cv hpf ht hread hst hfuel
    have hfn : cvPollFn reads n =
        (false, some (.msg ("configuration version errored: " ++ cv.error ++ " - " ++
          cv.errorMessage))) := by
      simp [cvPollFn, hread, hst, ConfigurationErrored]
    have h := pollWithContextAux_reach (fun _ => false) cvPollTimeoutMs
      (cvPollFn reads) n (fun _ _ => rfl) hpf ht (by rw [hfn]; rfl) fuel 0
      (by omega) (by omega)
    rw [cvPoll, pollWithContext, h, hfn]
  · intro reads fuel n cv hpf ht hread hst hfuel
    have hfn : cvPollFn reads n = (true, none) := by
      simp [cvPollFn, hread, hst, ConfigurationErrored, ConfigurationUploaded]
    have h := pollWithContextAux_reach (fun _ => false) cvPollTimeoutMs
      (cvPollFn reads) n (fun _ _ => rfl) hpf ht (by rw [hfn]; rfl) fuel 0
      (by omega) (by omega)
    rw [cvPoll, pollWithContext, h, hfn]

/-- A snapshot that is `pending` on its first two reads and `errored`
(with error detail) on the third. -/
def cvReadsErrored : Nat → Except GoError CVRead := fun n =>
  if n < 2 then .ok ⟨ConfigurationPending, "", ""⟩
  else .ok ⟨ConfigurationErrored, "bad", "syntax error"⟩

/-- A snapshot that is `pending` on its first read and `uploaded` on the
second. -/
def cvReadsFast : Nat → Except GoError CVRead := fun n =>
  if n < 1 then .ok ⟨ConfigurationPending, "", ""⟩
  else .ok ⟨ConfigurationUploaded, "", ""⟩

/-- Witness for the amended C2. -/
theorem upload_wait_behaviour_witness :
    cvPoll (fun _ => .ok ⟨ConfigurationPending, "", ""⟩) 11 =
        some (some GoError.errTimeout, 11) ∧
      cvPoll cvReadsErrored 5 =
        some (some (.msg ("configuration version errored: " ++ "bad" ++ " - " ++
          "syntax error")), 3) ∧
      cvPoll cvReadsFast 5 = some (none, 2) := by
  refine ⟨?_, ?_, ?_⟩
  · exact upload_wait_behaviour.1 (fun _ => .ok ⟨ConfigurationPending, "", ""⟩) 11
      (fun _ => rfl) (by omega)
  · exact upload_wait_behaviour.2.1 cvReadsErrored 5 2 ⟨ConfigurationErrored, "bad", "syntax error"⟩
      (by decide) (by decide) rfl rfl (by omega)
  · exact upload_wait_behaviour.2.2 cvReadsFast 5 1 ⟨ConfigurationUploaded, "", ""⟩
      (by decide) (by decide) rfl rfl (by omega)

/-! ## C1: classification of terminal statuses -/

/-- A workspace with auto-apply enabled. -/
def wsAuto : Workspace := ⟨"ws-1", "my-ws", "my-org", "", true⟩

/-- A fully successful remote interaction whose run ends with status
`policy_soft_failed` on the first completion-poll read. -/
def worldPolicySoft : World where
  createCV := .ok ()
  writeVarsFile := none
  upload := none
  cvReads := fun _ => .ok ⟨ConfigurationUploaded, "", ""⟩
  createRun := .ok "run-1"
  runReads := fun _ => .ok ⟨RunPolicySoftFailed, false⟩
  removeVarsFile := none

/-- Wait-for-completion apply run with no extra options. -/
def optsWaitApply : RunOptions := ⟨none, none, .apply, none, none, true, none⟩

/-- Counterexample to C1: `policy_soft_failed` is terminal for polling,
but the `switch` at the end of `Run` hits its `default` branch for it, so
`Run` returns a failure to the caller — the claim says it must not be
classified as a failure. -/
theorem policy_soft_failed_reported_as_failure :
    isEndStatus RunPolicySoftFailed = true ∧
      (RunModel worldPolicySoft wsAuto optsWaitApply 5).err =
        some (.msg "run run-1 finished with status policy soft failed") ∧
      (RunModel worldPolicySoft wsAuto optsWaitApply 5).output.hasChanges =
        some false := by decide

/-- C1 amended: among the six terminal statuses, exactly
`planned_and_finished` and `applied` are non-failures; `errored`,
`discarded`, `canceled` **and** `policy_soft_failed` all produce a failure
result to the caller, `policy_soft_failed` being terminal for polling like
the rest. -/
theorem end_status_failure_classification (rid s : String)
    (h : isEndStatus s = true) :
    ((classifyEndStatus rid s).isSome = true ↔
      (s = RunErrored ∨ s = RunDiscarded ∨ s = RunCanceled ∨
        s = RunPolicySoftFailed)) ∧
    isEndStatus RunPolicySoftFailed = true := by
  refine ⟨?_, by decide⟩
  simp only [isEndStatus, Bool.or_eq_true, beq_iff_eq] at h
  rcases h with ((((h | h) | h) | h) | h) | h <;> subst h <;>
    simp [classifyEndStatus, RunPolicySoftFailed, RunPlannedAndFinished,
      RunApplied, RunDiscarded, RunErrored, RunCanceled]

/-- Witness for the amended C1 at status `errored`. -/
theorem end_status_failure_classification_witness :
    ((classifyEndStatus "r" RunErrored).isSome = true ↔
      (RunErrored = RunErrored ∨ RunErrored = RunDiscarded ∨
        RunErrored = RunCanceled ∨ RunErrored = RunPolicySoftFailed)) ∧
    isEndStatus RunPolicySoftFailed = true :=
  end_status_failure_classification "r" RunErrored (by decide)

/-! ## C4: output extraction -/

/-- A state snapshot whose outputs all carry JSON string values. -/
def stateJsonOfStrings (l : List (String × String)) : Json :=
  .obj [("outputs", .obj (l.map fun p =>
    (p.1, Json.obj [("type", Json.str "string"), ("value", Json.str p.2)])))]

/-- A state snapshot with one output whose value is the JSON number 42. -/
def numberStateJson : Json :=
  .obj [("outputs", .obj [("n",
    Json.obj [("type", Json.str "number"), ("value", Json.num 42)])])]

/-- Counterexample to C4: `terraformOutput.Value` is a Go `string`, so a
state output whose value is not a JSON string makes `json.Unmarshal` —
and with it the whole extraction — fail; the value is not coerced to a
string representation. -/
theorem outputs_number_value_fails :
    GetTerraformOutputs ⟨.ok (), .ok numberStateJson⟩ =
      .error (.wrap "could not parse state"
        (.msg "cannot unmarshal JSON value into Go value of type string")) := by
  rfl

theorem unmarshalOutputEntries_strings (l : List (String × String)) :
    unmarshalOutputEntries (l.map fun p =>
        (p.1, Json.obj [("type", Json.str "string"), ("value", Json.str p.2)])) =
      .ok (l.map fun p => (p.1, (⟨"string", p.2⟩ : terraformOutput))) := by
  induction l with
  | nil => rfl
  | cons p rest ih =>
    simp only [List.map_cons, unmarshalOutputEntries, ih]
    rfl

/-- C4 amended: extraction parses the snapshot as a mapping from output
name to `{type, value}` and returns name → value for every entry whose
value is a JSON string; a value of any other JSON type is not coerced but
makes the extraction fail (see the counterexample). -/
theorem outputs_extraction_string_values (l : List (String × String)) :
    GetTerraformOutputs ⟨.ok (), .ok (stateJsonOfStrings l)⟩ = .ok l := by
  simp only [GetTerraformOutputs, stateJsonOfStrings, unmarshalState, jsonLookup,
    beq_self_eq_true, if_true]
  rw [unmarshalOutputEntries_strings l]
  show Except.ok
      ((l.map fun p => (p.1, (⟨"string", p.2⟩ : terraformOutput))).map
        fun e => (e.1, e.2.value)) = Except.ok l
  rw [List.map_map,
    show ((fun (e : String × terraformOutput) => (e.1, e.2.value)) ∘
      fun (p : String × String) => (p.1, (⟨"string", p.2⟩ : terraformOutput))) =
      id from rfl,
    List.map_id]

/-! ## C5: status logging during the completion poll -/

/-- Number of positions where a sequence differs from its predecessor,
the predecessor of the first element being `prev`. -/
def changeCount : String → List String → Nat
  | _, [] => 0
  | prev, s :: rest => (if s ≠ prev then 1 else 0) + changeCount s rest

/-- The completion poll logs a status line exactly at the ticks where the
observed status differs from the previously observed one (the initial
"previous" value being the zero-value string). -/
theorem completionPollAux_log_count (reads : Nat → Except GoError RunRead) :
    ∀ fuel n prev,
      ((completionPollAux reads fuel n prev).2.countP isLoggedStatus) =
        changeCount prev
          ((completionPollAux reads fuel n prev).2.filterMap observedOf) := by
  intro fuel
  induction fuel with
  | zero => intro n prev; rfl
  | succ fuel ih =>
    intro n prev
    simp only [completionPollAux]
    cases hr : reads n with
    | error e => simp [isLoggedStatus, observedOf, changeCount]
    | ok r =>
      by_cases hst : r.status ≠ prev
      · simp only [if_pos hst]
        split
        · simp [isLoggedStatus, observedOf, changeCount, hst]
        · split
          · simp [isLoggedStatus, observedOf, changeCount, hst]
          · simp [List.countP_append, List.filterMap_append, isLoggedStatus,
              observedOf, changeCount, hst, ih]
            omega
      · simp only [if_neg hst]
        push_neg at hst
        split
        · simp [isLoggedStatus, observedOf, changeCount, hst]
        · split
          · simp [isLoggedStatus, observedOf, changeCount, hst]
          · simp [List.countP_append, List.filterMap_append, isLoggedStatus,
              observedOf, changeCount, hst, ih]

/-- A run whose observed status sequence revisits an earlier value:
planning, pending, planning, applied. -/
def runReadsRevisit : Nat → Except GoError RunRead := fun n =>
  if n = 0 then .ok ⟨"planning", false⟩
  else if n = 1 then .ok ⟨"pending", false⟩
  else if n = 2 then .ok ⟨"planning", false⟩
  else .ok ⟨RunApplied, true⟩

/-- Counterexample to C5: the dedup compares only against the previously
observed status, so a status that reappears after an intervening different
value is logged again: the observed sequence
[planning, pending, planning, applied] has 3 distinct values but produces
4 log lines. -/
theorem completion_poll_relogs_revisited_status :
    (completionPoll runReadsRevisit 10).2.filterMap observedOf =
        ["planning", "pending", "planning", "applied"] ∧
      (completionPoll runReadsRevisit 10).2.countP isLoggedStatus = 4 ∧
      ((completionPoll runReadsRevisit 10).2.filterMap observedOf).dedup.length
        = 3 := by decide

/-- The spec's example sequence [pending, pending, applying, applying,
applied]. -/
def runReadsBlocks : Nat → Except GoError RunRead := fun n =>
  if n < 2 then .ok ⟨"pending", false⟩
  else if n < 4 then .ok ⟨"applying", false⟩
  else .ok ⟨RunApplied, true⟩

/-- C5 amended: a status line is logged exactly when the observed status
differs from the previously observed one (initial previous value: the
empty string), i.e. once per maximal block of consecutive equal statuses;
for sequences in which every distinct value occupies one consecutive
block — such as the spec's example, which logs 3 lines — this equals the
number of distinct values, but a value observed again after an
intervening different value is logged again. -/
theorem completion_poll_logs_once_per_change :
    (∀ (reads : Nat → Except GoError RunRead) (fuel : Nat),
      ((completionPoll reads fuel).2.countP isLoggedStatus) =
        changeCount "" ((completionPoll reads fuel).2.filterMap observedOf)) ∧
    (completionPoll runReadsBlocks 10).2.countP isLoggedStatus = 3 ∧
    ((completionPoll runReadsBlocks 10).2.filterMap observedOf).dedup.length
      = 3 := by
  refine ⟨?_, by decide, by decide⟩
  intro reads fuel
  exact completionPollAux_log_count reads fuel 0 ""

/-! ## C6: waiting is skipped for non-plan runs without auto-apply -/

theorem afterVars_skips_wait (w : World) (ws : Workspace) (opts : RunOptions)
    (fuel : Nat) (hw : opts.waitForCompletion = true)
    (ht : opts.type ≠ RunType.plan) (ha : ws.autoApply = false) :
    (afterVars w ws opts fuel).events.countP isRunRead = 0 ∧
      (afterVars w ws opts fuel).output.hasChanges = none ∧
      ((afterVars w ws opts fuel).err = none →
        Event.loggedSkipWait ∈ (afterVars w ws opts fuel).events) := by
  unfold afterVars
  cases hu : w.upload with
  | some e => simp [isRunRead]
  | none =>
    cases hcv : cvPoll w.cvReads fuel with
    | none => simp [isRunRead]
    | some p =>
      obtain ⟨oe, k⟩ := p
      cases oe with
      | some e => simp [isRunRead]
      | none =>
        cases hcr : w.createRun with
        | error e => simp [isRunRead]
        | ok runID => simp [hw, ht, ha, isRunRead]

/-- C6: with `waitForCompletion` set, a run that is not a plan on a
workspace without auto-apply performs no completion-poll read, leaves
`HasChanges` unset, and — whenever `Run` returns without error under
these hypotheses — has logged that waiting was skipped. -/
theorem run_skips_wait_on_manual_apply (w : World) (ws : Workspace)
    (opts : RunOptions) (fuel : Nat) (hw : opts.waitForCompletion = true)
    (ht : opts.type ≠ RunType.plan) (ha : ws.autoApply = false) :
    (RunModel w ws opts fuel).events.countP isRunRead = 0 ∧
      (RunModel w ws opts fuel).output.hasChanges = none ∧
      ((RunModel w ws opts fuel).err = none →
        Event.loggedSkipWait ∈ (RunModel w ws opts fuel).events) := by
  have hav := afterVars_skips_wait w ws opts fuel hw ht ha
  unfold RunModel
  cases hcc : w.createCV with
  | error e => simp [isRunRead]
  | ok u =>
    cases htv : opts.tfVars with
    | none => exact hav
    | some v =>
      cases hwv : w.writeVarsFile with
      | some e => simp [isRunRead]
      | none =>
        refine ⟨?_, hav.2.1, ?_⟩
        · simp [List.countP_append, List.countP_cons, isRunRead, hav.1]
        · intro he
          have hm := hav.2.2 he
          simp only [List.mem_cons, List.mem_append, List.mem_singleton]
          tauto

/-- A workspace with auto-apply disabled. -/
def wsManual : Workspace := ⟨"ws-2", "my-ws", "my-org", "", false⟩

/-- A fully successful remote interaction (the run itself would apply
cleanly if anyone waited for it). -/
def worldC6 : World where
  createCV := .ok ()
  writeVarsFile := none
  upload := none
  cvReads := fun _ => .ok ⟨ConfigurationUploaded, "", ""⟩
  createRun := .ok "run-2"
  runReads := fun _ => .ok ⟨RunApplied, true⟩
  removeVarsFile := none

/-- Witness for C6. -/
theorem run_skips_wait_on_manual_apply_witness :
    (RunModel worldC6 wsManual optsWaitApply 3).events.countP isRunRead = 0 ∧
      (RunModel worldC6 wsManual optsWaitApply 3).output.hasChanges = none ∧
      Event.loggedSkipWait ∈ (RunModel worldC6 wsManual optsWaitApply 3).events := by
  have h := run_skips_wait_on_manual_apply worldC6 wsManual optsWaitApply 3
    rfl (by decide) rfl
  exact ⟨h.1, h.2.1, h.2.2 (by decide)⟩

/-! ## C3: lifetime of the temporary run.auto.tfvars file -/

/-- Every branch of the post-write remainder of `Run` records the upload
call as its first side effect. -/
theorem afterVars_starts_with_upload (w : World) (ws : Workspace)
    (opts : RunOptions) (fuel : Nat) :
    ∃ t, (afterVars w ws opts fuel).events = Event.uploadCalled :: t := by
  unfold afterVars
  cases w.upload with
  | some e => exact ⟨[], rfl⟩
  | none =>
    cases cvPoll w.cvReads fuel with
    | none => exact ⟨[], rfl⟩
    | some p =>
      obtain ⟨oe, k⟩ := p
      cases oe with
      | some e => exact ⟨[], rfl⟩
      | none =>
        cases w.createRun with
        | error e => exact ⟨[], rfl⟩
        | ok rid =>
          dsimp only
          by_cases hw : opts.waitForCompletion = false
          · rw [if_pos hw]
            exact ⟨[.createdRun], rfl⟩
          · rw [if_neg hw]
            by_cases hs : opts.type ≠ RunType.plan ∧ ws.autoApply = false
            · rw [if_pos hs]
              exact ⟨[.createdRun, .loggedSkipWait], rfl⟩
            · rw [if_neg hs]
              obtain ⟨cr, evs⟩ := completionPoll w.runReads fuel
              cases cr with
              | failed e => exact ⟨.createdRun :: evs, rfl⟩
              | finished r => exact ⟨.createdRun :: evs, rfl⟩

/-- C3 amended: when inline variables are supplied and the local write
succeeds, the vars file is written before the upload call, and its
removal is the **last** side effect of `Run` — it runs via `defer` when
`Run` returns (on the success path this is after the upload wait, run
creation and any completion wait, not immediately after the upload call),
and it also runs when the upload fails; a removal failure only logs (the
`removedVarsFile false` event) and never replaces the returned error,
in particular the upload's own error is returned unchanged. -/
theorem vars_file_scoped_cleanup (w : World) (ws : Workspace)
    (opts : RunOptions) (fuel : Nat) (v : String) (hcc : w.createCV = .ok ())
    (htv : opts.tfVars = some v) (hwv : w.writeVarsFile = none) :
    (∃ mid, (RunModel w ws opts fuel).events =
        Event.wroteVarsFile :: Event.uploadCalled :: mid ++
          [Event.removedVarsFile w.removeVarsFile.isNone]) ∧
      (RunModel w ws opts fuel).err = (afterVars w ws opts fuel).err ∧
      (∀ e, w.upload = some e →
        (RunModel w ws opts fuel).err =
          some (.wrap "could not upload directory" e)) := by
  obtain ⟨t, hts⟩ := afterVars_starts_with_upload w ws opts fuel
  unfold RunModel
  rw [hcc, htv, hwv]
  refine ⟨⟨t, ?_⟩, rfl, ?_⟩
  · simp [hts]
  · intro e he
    simp [afterVars, he]

/-- A world where the upload fails and the deferred removal of the vars
file fails as well. -/
def worldC3fail : World where
  createCV := .ok ()
  writeVarsFile := none
  upload := some (.msg "io")
  cvReads := fun _ => .ok ⟨ConfigurationUploaded, "", ""⟩
  createRun := .ok "run-3"
  runReads := fun _ => .ok ⟨RunApplied, true⟩
  removeVarsFile := some (.msg "busy")

/-- Inline variables supplied, no waiting. -/
def optsVarsNoWait : RunOptions :=
  ⟨none, none, .apply, none, none, false, some "x = 1"⟩

/-- Witness for the amended C3: on a failed upload the file is still
removed (here: removal itself fails and is merely logged) and the upload
error is returned untouched. -/
theorem vars_file_scoped_cleanup_witness :
    (∃ mid, (RunModel worldC3fail wsAuto optsVarsNoWait 3).events =
        Event.wroteVarsFile :: Event.uploadCalled :: mid ++
          [Event.removedVarsFile false]) ∧
      (RunModel worldC3fail wsAuto optsVarsNoWait 3).err =
        some (.wrap "could not upload directory" (.msg "io")) := by
  have h := vars_file_scoped_cleanup worldC3fail wsAuto optsVarsNoWait 3 "x = 1"
    rfl rfl rfl
  refine ⟨?_, h.2.2 (.msg "io") rfl⟩
  simpa using h.1

/-- A fully successful world with inline variables. -/
def worldC3ok : World where
  createCV := .ok ()
  writeVarsFile := none
  upload := none
  cvReads := fun _ => .ok ⟨ConfigurationUploaded, "", ""⟩
  createRun := .ok "run-3"
  runReads := fun _ => .ok ⟨RunApplied, true⟩
  removeVarsFile := none

/-- Counterexample to C3: on the success path the vars file is **not**
removed immediately after the upload call returns — the run-creation call
(and, when waited on, the whole completion poll) happens in between, and
the removal is the final action of `Run`. -/
theorem vars_file_not_removed_right_after_upload :
    (RunModel worldC3ok wsAuto optsVarsNoWait 3).events =
        [Event.wroteVarsFile, Event.uploadCalled, Event.createdRun,
          Event.removedVarsFile true] ∧
      (RunModel worldC3ok wsAuto optsVarsNoWait 3).err = none := by decide

/-! ## C8 and C10: normalization of the targets / replacements input -/

theorem notAllEmptyOrNilAux_some (slice : List String) :
    ∀ l r, notAllEmptyOrNilAux slice l = some r →
      r = slice ∧ ∃ x ∈ l, x ≠ "" := by
  intro l
  induction l with
  | nil => intro r h; simp [notAllEmptyOrNilAux] at h
  | cons s rest ih =>
    intro r h
    rw [notAllEmptyOrNilAux] at h
    by_cases hs : s ≠ ""
    · rw [if_pos hs] at h
      exact ⟨(Option.some.inj h).symm, s, List.mem_cons_self s rest, hs⟩
    · rw [if_neg hs] at h
      obtain ⟨hr, x, hx, hxe⟩ := ih r h
      exact ⟨hr, x, List.mem_cons_of_mem s hx, hxe⟩

theorem notAllEmptyOrNilAux_none (slice : List String) :
    ∀ l, (∀ x ∈ l, x = "") → notAllEmptyOrNilAux slice l = none := by
  intro l
  induction l with
  | nil => intro _; rfl
  | cons s rest ih =>
    intro h
    rw [notAllEmptyOrNilAux, if_neg (by simp [h s (List.mem_cons_self s rest)])]
    exact ih fun x hx => h x (List.mem_cons_of_mem s hx)

theorem notAllEmptyOrNilAux_some_self (slice : List String) :
    ∀ l, (∃ x ∈ l, x ≠ "") → notAllEmptyOrNilAux slice l = some slice := by
  intro l
  induction l with
  | nil => rintro ⟨x, hx, _⟩; exact absurd hx (List.not_mem_nil x)
  | cons s rest ih =>
    rintro ⟨x, hx, hxe⟩
    rw [notAllEmptyOrNilAux]
    by_cases hs : s ≠ ""
    · rw [if_pos hs]
    · rw [if_neg hs]
      push_neg at hs
      rcases List.mem_cons.1 hx with rfl | hx2
      · exact absurd hs hxe
      · exact ih ⟨x, hx2, hxe⟩

/-- C8: an empty targets (or replacements) caller input — and more
generally any input all of whose lines are empty — is normalized to the
nil slice before reaching `tfe.RunCreateOptions`, i.e. exactly the value
the field has when targets were never specified, and `notAllEmptyOrNil`
can never hand the API an empty (non-nil) collection. -/
theorem empty_targets_normalized_to_absent :
    targetAddrsInput "" = none ∧
      targetAddrsInput "" = runCreateTargetsWhenUnspecified ∧
      (∀ l r, notAllEmptyOrNil l = some r → r ≠ []) ∧
      (∀ s, (goSplitNewline s).all (· == "") = true → targetAddrsInput s = none) := by
  refine ⟨rfl, rfl, ?_, ?_⟩
  · intro l r h
    obtain ⟨rfl, x, hx, _⟩ := notAllEmptyOrNilAux_some l l r h
    rintro rfl
    exact (List.not_mem_nil x) hx
  · intro s h
    rw [targetAddrsInput, notAllEmptyOrNil]
    refine notAllEmptyOrNilAux_none _ _ ?_
    intro x hx
    simpa using (List.all_eq_true.1 h) x hx

/-- Witness for C8. -/
theorem empty_targets_normalized_to_absent_witness :
    targetAddrsInput "" = none ∧
      targetAddrsInput "\n\n" = none ∧
      (["a"] : List String) ≠ [] :=
  ⟨empty_targets_normalized_to_absent.1,
    empty_targets_normalized_to_absent.2.2.2 "\n\n" (by decide),
    empty_targets_normalized_to_absent.2.2.1 ["a"] ["a"] (by decide)⟩

/-- C10: when at least one line of the newline-separated input is
non-empty, the list is passed to run creation exactly as split — blank
lines included, nothing filtered. -/
theorem nonempty_targets_passed_verbatim (s : String)
    (h : ∃ x ∈ goSplitNewline s, x ≠ "") :
    targetAddrsInput s = some (goSplitNewline s) := by
  rw [targetAddrsInput, notAllEmptyOrNil]
  exact notAllEmptyOrNilAux_some_self _ _ h

/-- Witness for C10: the blank middle line survives. -/
theorem nonempty_targets_passed_verbatim_witness :
    targetAddrsInput "a\n\nb" = some ["a", "", "b"] := by
  rw [nonempty_targets_passed_verbatim "a\n\nb" (by decide)]
  decide
